import Mathlib

/-!
# Flashcard spaced-repetition scheduler: shallow embedding

Shallow embedding of the SM-2-style flashcard scheduler of the Penlet
backend (`app/crud/flashcard.py`, `app/schemas/flashcard.py`,
`app/models/flashcard.py`, `app/api/v1/endpoints/flashcards.py`).

Modelling conventions:
* IEEE-754 doubles (`ease_factor`) are modelled as exact rationals `ℚ`.
  Every concrete counterexample below was checked to behave identically
  under double arithmetic (the discrepancies are structural, not
  rounding artefacts).
* Timestamps are integers (seconds since an epoch); `timedelta(days=d)`
  becomes `86400 * d`.
* The SQL table is a list of rows in storage order; `ORDER BY x` is a
  stable sort on `x` (`List.insertionSort`), `LIMIT n` is `List.take n`,
  `COUNT`/`AVG` are length/mean of the filtered list.
* Python `int(x)` truncates toward zero: `pyInt`.
* Python `round(x, 2)` is modelled by `roundTo2` (round to nearest
  hundredth; Python uses round-half-even on doubles, the model rounds
  halves up — the two agree away from exact ties, and no statement
  below depends on a tie).
-/

namespace Penlet

/-- Python `int()` applied to a rational: truncation toward zero. -/
def pyInt (q : ℚ) : ℤ :=
  if q < 0 then ⌈q⌉ else ⌊q⌋

/-- Python `round(x, 2)`: round to two decimal places. -/
def roundTo2 (q : ℚ) : ℚ :=
  (round (q * 100) : ℤ) / 100

/-- A row of the `flashcards` table (`app/models/flashcard.py`,
class `Flashcard`).  `next_review` is a timestamp in seconds. -/
structure Flashcard where
  id : ℤ
  deck_id : ℤ
  front : String
  back : String
  next_review : ℤ
  interval : ℤ
  repetition : ℤ
  ease_factor : ℚ
  deriving Repr, DecidableEq

/-- Column defaults of `app/models/flashcard.py`: a card is created with
`interval=0, repetition=0, ease_factor=2.5, next_review=CURRENT_TIMESTAMP`. -/
def freshCard (id deck_id : ℤ) (front back : String) (created : ℤ) : Flashcard :=
  { id := id, deck_id := deck_id, front := front, back := back,
    next_review := created, interval := 0, repetition := 0,
    ease_factor := 5/2 }

/-- The ease-factor update of `update_review`
(`app/crud/flashcard.py` lines 198-202):
`max(1.3, ease_factor + 0.1 - (5 - quality) * (0.08 + (5 - quality) * 0.02))`. -/
def easeUpdate (ef : ℚ) (quality : ℤ) : ℚ :=
  max (13/10) (ef + 1/10 - (5 - quality) * (8/100 + (5 - quality) * (2/100)))

/-- The pure state transition of `update_review`
(`app/crud/flashcard.py` lines 173-209), with the current time passed in.
Mirrors the source statement by statement:
if `quality < 3` reset `repetition` to 0 and `interval` to 1; otherwise
set `interval` by cases on `repetition` (the `else` branch is Python
`int(interval * ease_factor)`, i.e. truncation) and increment
`repetition`; then clamp the ease factor and set
`next_review = now + timedelta(days=interval)`. -/
def update_review (card : Flashcard) (quality : ℤ) (now : ℤ) : Flashcard :=
  let card :=
    if quality < 3 then
      { card with repetition := 0, interval := 1 }
    else
      let newInterval :=
        if card.repetition = 0 then 1
        else if card.repetition = 1 then 6
        else pyInt (card.interval * card.ease_factor)
      { card with interval := newInterval, repetition := card.repetition + 1 }
  let card := { card with ease_factor := easeUpdate card.ease_factor quality }
  { card with next_review := now + 86400 * card.interval }

/-- `ReviewUpdate` (`app/schemas/flashcard.py` lines 61-63): a validated
review request; `quality` carries the pydantic bound `ge=0, le=5`. -/
structure ReviewUpdate where
  quality : ℤ
  deriving Repr, DecidableEq

/-- Pydantic validation of `ReviewUpdate`: accepts an integer quality in
`[0, 5]`, rejects anything else before any handler code runs. -/
def ReviewUpdate.validate (quality : ℤ) : Option ReviewUpdate :=
  if 0 ≤ quality ∧ quality ≤ 5 then some { quality := quality } else none

/-- Error surfaced when `ReviewUpdate` validation fails. -/
inductive ReviewError where
  | InvalidQuality
  deriving Repr, DecidableEq

/-- The flashcards table: rows in storage order. -/
abbrev DB := List Flashcard

/-- `get_flashcard` (`app/crud/flashcard.py`): first row matching the id. -/
def get_flashcard (db : DB) (card_id : ℤ) : Option Flashcard :=
  (db.filter (fun c => c.id = card_id)).head?

/-- Persisting a modified card: replace the row with the same id. -/
def save_card (db : DB) (card : Flashcard) : DB :=
  db.map (fun c => if c.id = card.id then card else c)

/-- `update_review` at the store level: load the card, run the SM-2
transition, persist the result (`None` when the card does not exist). -/
def update_review_db (db : DB) (card_id : ℤ) (r : ReviewUpdate) (now : ℤ) :
    Option Flashcard × DB :=
  match get_flashcard db card_id with
  | none => (none, db)
  | some card =>
      let card := update_review card r.quality now
      (some card, save_card db card)

/-- The `review_card` endpoint
(`app/api/v1/endpoints/flashcards.py`): the request body is validated
into a `ReviewUpdate` before `update_review` runs; an out-of-range
quality is rejected as `InvalidQuality` with the store untouched. -/
def review_card (db : DB) (card_id : ℤ) (quality : ℤ) (now : ℤ) :
    Except ReviewError (Option Flashcard) × DB :=
  match ReviewUpdate.validate quality with
  | none => (Except.error ReviewError.InvalidQuality, db)
  | some r =>
      let p := update_review_db db card_id r now
      (Except.ok p.1, p.2)

/-- Row order produced by `ORDER BY next_review`. -/
def byNextReview (a b : Flashcard) : Prop :=
  a.next_review ≤ b.next_review

instance : DecidableRel byNextReview := fun a b =>
  inferInstanceAs (Decidable (a.next_review ≤ b.next_review))

instance : IsTotal Flashcard byNextReview :=
  ⟨fun a b => Int.le_total a.next_review b.next_review⟩

instance : IsTrans Flashcard byNextReview :=
  ⟨fun _ _ _ hab hbc => le_trans hab hbc⟩

/-- `get_due_cards` (`app/crud/flashcard.py` lines 211-223): rows of the
deck with `next_review <= now`, ordered by `next_review` only, first
`limit` rows. -/
def get_due_cards (db : DB) (deck_id : ℤ) (now : ℤ) (limit : ℕ) :
    List Flashcard :=
  ((db.filter (fun c => c.deck_id = deck_id ∧ c.next_review ≤ now)).insertionSort
      byNextReview).take limit

/-- `get_cards_by_deck` (`app/crud/flashcard.py` lines 117-131) with
`due_only=False`: rows of the deck ordered by `next_review`, then
`OFFSET skip LIMIT limit`.  The Python signature defaults to
`skip=0, limit=100`. -/
def get_cards_by_deck (db : DB) (deck_id : ℤ) (skip limit : ℕ) :
    List Flashcard :=
  (((db.filter (fun c => c.deck_id = deck_id)).insertionSort
      byNextReview).drop skip).take limit

/-- `StudySessionResponse` (`app/schemas/flashcard.py`). -/
structure StudySessionResponse where
  deck_id : ℤ
  cards_due : List Flashcard
  total_cards : ℕ
  deriving Repr, DecidableEq

/-- The `start_study_session` endpoint
(`app/api/v1/endpoints/flashcards.py` lines 257-288), after the deck and
access checks: `cards_due = get_due_cards(db, deck_id, limit)` and
`total_cards = len(get_cards_by_deck(db, deck_id))` — the latter call
uses the defaults `skip=0, limit=100`. -/
def start_study_session (db : DB) (deck_id : ℤ) (now : ℤ) (limit : ℕ) :
    StudySessionResponse :=
  { deck_id := deck_id,
    cards_due := get_due_cards db deck_id now limit,
    total_cards := (get_cards_by_deck db deck_id 0 100).length }

/-- The dict returned by `get_study_stats` (`app/crud/flashcard.py`
lines 224-258). -/
structure StudyStats where
  deck_id : ℤ
  total_cards : ℕ
  cards_due : ℕ
  cards_learning : ℕ
  cards_mastered : ℕ
  average_ease_factor : ℚ
  deriving Repr, DecidableEq

/-- `get_study_stats` (`app/crud/flashcard.py` lines 224-258): per-deck
counts plus `round(float(avg(ease_factor) or 2.5), 2)`.  SQL `AVG` is
`NULL` on an empty deck; Python `or 2.5` also replaces a 0.0 average
(both are falsy), which the model reproduces. -/
def get_study_stats (db : DB) (deck_id : ℤ) (now : ℤ) : StudyStats :=
  let deckCards := db.filter (fun c => c.deck_id = deck_id)
  let avg : ℚ :=
    if deckCards.length = 0 then 5/2
    else
      let a := (deckCards.map (fun c => c.ease_factor)).sum / deckCards.length
      if a = 0 then 5/2 else a
  { deck_id := deck_id,
    total_cards := deckCards.length,
    cards_due := (deckCards.filter (fun c => c.next_review ≤ now)).length,
    cards_learning := (deckCards.filter (fun c => c.interval = 0)).length,
    cards_mastered := (deckCards.filter (fun c => 30 ≤ c.interval)).length,
    average_ease_factor := roundTo2 avg }

/-- `FlashcardUpdate` (`app/schemas/flashcard.py` lines 15-18): the
generic card-update schema exposes only `front` and `back`. -/
structure FlashcardUpdate where
  front : Option String
  back : Option String
  deriving Repr, DecidableEq

/-- The attribute loop of `update_flashcard` (`app/crud/flashcard.py`
lines 141-159): `setattr` for each field of the dump that is not `None`. -/
def apply_flashcard_update (card : Flashcard) (u : FlashcardUpdate) :
    Flashcard :=
  let card := match u.front with
    | some f => { card with front := f }
    | none => card
  match u.back with
    | some b => { card with back := b }
    | none => card

/-- The review transition exactly as the specification words it
(spec §4.1), for comparison with `update_review`.  The only reading
difference from the source is the growth case: the spec says
`interval = round(interval * ease_factor)` where the source computes
Python `int(interval * ease_factor)`. -/
def record_review_spec (card : Flashcard) (quality : ℤ) (now : ℤ) :
    Flashcard :=
  let newInterval : ℤ :=
    if quality < 3 then 1
    else if card.repetition = 0 then 1
    else if card.repetition = 1 then 6
    else round (card.interval * card.ease_factor)
  let newRepetition : ℤ := if quality < 3 then 0 else card.repetition + 1
  { card with
    interval := newInterval,
    repetition := newRepetition,
    ease_factor :=
      max (13/10)
        (card.ease_factor + 1/10 -
          (5 - quality) * (8/100 + (5 - quality) * (2/100))),
    next_review := now + 86400 * newInterval }

/-- `record_review_spec` with the growth case amended to the source's
truncation (`int(interval * ease_factor)` instead of `round`). -/
def record_review_amended (card : Flashcard) (quality : ℤ) (now : ℤ) :
    Flashcard :=
  let newInterval : ℤ :=
    if quality < 3 then 1
    else if card.repetition = 0 then 1
    else if card.repetition = 1 then 6
    else pyInt (card.interval * card.ease_factor)
  let newRepetition : ℤ := if quality < 3 then 0 else card.repetition + 1
  { card with
    interval := newInterval,
    repetition := newRepetition,
    ease_factor :=
      max (13/10)
        (card.ease_factor + 1/10 -
          (5 - quality) * (8/100 + (5 - quality) * (2/100))),
    next_review := now + 86400 * newInterval }

/-- Review states reachable from card creation through any number of
validated review submissions. -/
inductive Reachable : Flashcard → Prop
  | created (id deck_id : ℤ) (front back : String) (t : ℤ) :
      Reachable (freshCard id deck_id front back t)
  | reviewed (c : Flashcard) (q now : ℤ) (hc : Reachable c)
      (h0 : 0 ≤ q) (h5 : q ≤ 5) : Reachable (update_review c q now)

/-! ## Concrete cards and tables used as witnesses and counterexamples -/

/-- A card mid-trajectory: `interval = 6`, `repetition = 2`,
`ease_factor = 2.6` (all reachable values; under IEEE doubles the
product `6 * 2.6` is `15.600000000000001`, so truncation and rounding
disagree there exactly as they do for the rational `15.6`). -/
def cardI6 : Flashcard :=
  { id := 1, deck_id := 1, front := "f", back := "b",
    next_review := 0, interval := 6, repetition := 2,
    ease_factor := 13/5 }

/-- Two cards of the same deck with equal `next_review`; in the table
the card with the larger id comes first. -/
def cardTieA : Flashcard :=
  { id := 1, deck_id := 1, front := "a", back := "a",
    next_review := 0, interval := 0, repetition := 0, ease_factor := 5/2 }

/-- See `cardTieA`. -/
def cardTieB : Flashcard :=
  { id := 2, deck_id := 1, front := "c", back := "d",
    next_review := 0, interval := 0, repetition := 0, ease_factor := 5/2 }

/-- The table holding the id-2 card before the id-1 card. -/
def dbTies : DB := [cardTieB, cardTieA]

/-- A deck of 101 freshly created cards, one more than the default
`limit=100` of `get_cards_by_deck`. -/
def bigDB : DB := (List.range 101).map (fun i => freshCard i 1 "f" "b" 0)

/-- A card with the minimal ease factor `1.3`. -/
def cardE1 : Flashcard :=
  { id := 1, deck_id := 1, front := "a", back := "a",
    next_review := 0, interval := 0, repetition := 0, ease_factor := 13/10 }

/-- A card with ease factor `1.4`. -/
def cardE2 : Flashcard :=
  { id := 2, deck_id := 1, front := "a", back := "a",
    next_review := 0, interval := 0, repetition := 0, ease_factor := 7/5 }

/-- A second card with ease factor `1.4`. -/
def cardE3 : Flashcard :=
  { id := 3, deck_id := 1, front := "a", back := "a",
    next_review := 0, interval := 0, repetition := 0, ease_factor := 7/5 }

/-- A three-card deck whose mean ease `41/30 = 1.3666…` is not
representable in two decimal places. -/
def dbEase : DB := [cardE1, cardE2, cardE3]

end Penlet

namespace Penlet

/-! ## Helper lemmas -/

/-- Field-by-field description of `update_review`. -/
lemma update_review_fields (c : Flashcard) (q now : ℤ) :
    (update_review c q now).interval =
      (if q < 3 then 1
       else if c.repetition = 0 then 1
       else if c.repetition = 1 then 6
       else pyInt (c.interval * c.ease_factor)) ∧
    (update_review c q now).repetition =
      (if q < 3 then 0 else c.repetition + 1) ∧
    (update_review c q now).ease_factor = easeUpdate c.ease_factor q ∧
    (update_review c q now).next_review =
      now + 86400 * (update_review c q now).interval := by
  unfold update_review
  dsimp only
  split_ifs <;> exact ⟨rfl, rfl, rfl, rfl⟩

/-- Any review of a card whose state satisfies the reachable-state
invariant produces an interval of at least one day. -/
lemma update_review_interval_pos {c : Flashcard} (hi : 0 ≤ c.interval)
    (hr : 0 ≤ c.repetition) (he : 13/10 ≤ c.ease_factor)
    (hri : 2 ≤ c.repetition → 1 ≤ c.interval) (q now : ℤ) :
    1 ≤ (update_review c q now).interval := by
  rw [(update_review_fields c q now).1]
  split_ifs with h1 h2 h3
  · norm_num
  · norm_num
  · norm_num
  · have h2le : 2 ≤ c.repetition := by omega
    have hint : 1 ≤ c.interval := hri h2le
    have hprod : (1:ℚ) ≤ c.interval * c.ease_factor := by
      calc (1:ℚ) ≤ 13/10 := by norm_num
        _ ≤ 1 * c.ease_factor := by rw [one_mul]; exact he
        _ ≤ c.interval * c.ease_factor := by
            apply mul_le_mul_of_nonneg_right
            · exact_mod_cast hint
            · linarith
    unfold pyInt
    rw [if_neg (by linarith : ¬((c.interval : ℚ) * c.ease_factor < 0))]
    exact Int.le_floor.2 (by exact_mod_cast hprod)

/-- Invariant of reachable review states: `interval ≥ 0`,
`repetition ≥ 0`, `ease_factor ≥ 1.3`, and an interval of at least one
day once two consecutive successes have been recorded. -/
lemma reachable_state_invariant {c : Flashcard} (h : Reachable c) :
    0 ≤ c.interval ∧ 0 ≤ c.repetition ∧ 13/10 ≤ c.ease_factor ∧
    (2 ≤ c.repetition → 1 ≤ c.interval) := by
  induction h with
  | created id deck_id front back t => simp [freshCard]; norm_num
  | reviewed c q now hc h0 h5 ih =>
      obtain ⟨hi, hr, he, hri⟩ := ih
      have hpos := update_review_interval_pos hi hr he hri q now
      refine ⟨by linarith, ?_, ?_, fun _ => hpos⟩
      · rw [(update_review_fields c q now).2.1]
        split_ifs <;> omega
      · rw [(update_review_fields c q now).2.2.1]
        unfold easeUpdate
        exact le_max_left _ _

end Penlet

namespace Penlet

/-! ## C1: the review transition versus the specified formula -/

/-- C1 counterexample: at `interval = 6`, `repetition = 2`,
`ease_factor = 2.6`, `quality = 4`, the source computes
`int(6 * 2.6) = 15` while the claim's `round(6 * 2.6)` gives `16`, so
`update_review` does not compute the state "exactly as specified". -/
theorem update_review_not_round :
    (update_review cardI6 4 0).interval = 15 ∧
    (record_review_spec cardI6 4 0).interval = 16 ∧
    update_review cardI6 4 0 ≠ record_review_spec cardI6 4 0 := by
  have h1 : (update_review cardI6 4 0).interval = 15 := by
    norm_num [update_review, easeUpdate, pyInt, cardI6]
  have h2 : (record_review_spec cardI6 4 0).interval = 16 := by
    norm_num [record_review_spec, cardI6, round_eq]
  refine ⟨h1, h2, fun h => ?_⟩
  have h3 := congrArg Flashcard.interval h
  rw [h1, h2] at h3
  exact absurd h3 (by decide)

/-- C1 amended: for every card state with `interval ≥ 0`,
`repetition ≥ 0`, `ease_factor ≥ 1.3` and every quality in `[0, 5]`,
`update_review` computes the new state as specified with the growth
case read as truncation (`int(interval * ease_factor)`) rather than
rounding. -/
theorem update_review_matches_amended_spec (card : Flashcard)
    (quality now : ℤ) (hi : 0 ≤ card.interval) (hr : 0 ≤ card.repetition)
    (he : 13/10 ≤ card.ease_factor) (hq0 : 0 ≤ quality) (hq5 : quality ≤ 5) :
    update_review card quality now = record_review_amended card quality now := by
  unfold update_review record_review_amended easeUpdate
  dsimp only
  split_ifs <;> rfl

/-- Witness for `update_review_matches_amended_spec` at `cardI6`,
`quality = 4`. -/
theorem update_review_matches_amended_spec_witness :
    (0:ℤ) ≤ cardI6.interval ∧ (0:ℤ) ≤ cardI6.repetition ∧
    (13:ℚ)/10 ≤ cardI6.ease_factor ∧ (0:ℤ) ≤ 4 ∧ (4:ℤ) ≤ 5 ∧
    update_review cardI6 4 0 = record_review_amended cardI6 4 0 :=
  ⟨by norm_num [cardI6], by norm_num [cardI6], by norm_num [cardI6],
   by norm_num, by norm_num,
   update_review_matches_amended_spec cardI6 4 0 (by norm_num [cardI6])
    (by norm_num [cardI6]) (by norm_num [cardI6]) (by norm_num) (by norm_num)⟩

/-! ## C2: invalid quality is rejected before any mutation -/

/-- C2: for every store and every quality outside `[0, 5]`, the review
endpoint fails with `InvalidQuality` and returns the store unchanged —
validation happens before `update_review` runs, so no review state is
mutated. -/
theorem review_card_rejects_invalid_quality (db : DB)
    (card_id quality now : ℤ) (h : quality < 0 ∨ 5 < quality) :
    review_card db card_id quality now =
      (Except.error ReviewError.InvalidQuality, db) := by
  have hv : ¬(0 ≤ quality ∧ quality ≤ 5) := by omega
  simp [review_card, ReviewUpdate.validate, hv]

/-- Witness for `review_card_rejects_invalid_quality` at `quality = 7`
on a one-card store. -/
theorem review_card_rejects_invalid_quality_witness :
    ((7:ℤ) < 0 ∨ (5:ℤ) < 7) ∧
    review_card [cardI6] 1 7 0 =
      (Except.error ReviewError.InvalidQuality, [cardI6]) :=
  ⟨Or.inr (by norm_num),
   review_card_rejects_invalid_quality [cardI6] 1 7 0 (Or.inr (by norm_num))⟩

/-! ## C3: the ease-factor floor -/

/-- C3: from any state with `ease_factor ≥ 1.3` and any quality in
`[0, 5]`, the ease factor after `update_review` is at least `1.3` (the
`max(1.3, ·)` clamp runs on every path, failing reviews included). -/
theorem update_review_ease_floor (card : Flashcard) (quality now : ℤ)
    (he : 13/10 ≤ card.ease_factor) (hq0 : 0 ≤ quality) (hq5 : quality ≤ 5) :
    13/10 ≤ (update_review card quality now).ease_factor := by
  unfold update_review easeUpdate
  dsimp only
  split_ifs <;> exact le_max_left _ _

/-- Witness for `update_review_ease_floor` at `cardI6`, `quality = 0`
(a failing review). -/
theorem update_review_ease_floor_witness :
    (13:ℚ)/10 ≤ cardI6.ease_factor ∧ (0:ℤ) ≤ 0 ∧ (0:ℤ) ≤ 5 ∧
    13/10 ≤ (update_review cardI6 0 0).ease_factor :=
  ⟨by norm_num [cardI6], by norm_num, by norm_num,
   update_review_ease_floor cardI6 0 0 (by norm_num [cardI6]) (by norm_num)
    (by norm_num)⟩

/-! ## C4: the quality-5 trajectory from a fresh card -/

/-- C4 counterexample: three `quality = 5` reviews of a fresh card give
interval `16`, not `15`, on the third review — the ease factor has
grown to `2.7` by then (`2.5 + 0.1 + 0.1`), so the third interval is
`int(6 * 2.7) = 16`. -/
theorem trajectory_q5_third_interval_not_15 :
    (update_review (update_review (update_review
        (freshCard 1 1 "f" "b" 0) 5 0) 5 0) 5 0).interval = 16 ∧
    (update_review (update_review (update_review
        (freshCard 1 1 "f" "b" 0) 5 0) 5 0) 5 0).interval ≠ 15 := by
  norm_num [update_review, easeUpdate, pyInt, freshCard]

/-- C4 amended: from a fresh card (`interval = 0`, `repetition = 0`,
`ease_factor = 2.5`), repeated `quality = 5` reviews give intervals
`1`, `6`, `16` after the first three reviews, for every card identity
and every sequence of review times; the trajectory is a pure function
of the starting state and the quality sequence, so re-running it from
the same fresh state reproduces identical results. -/
theorem trajectory_q5_intervals (id deck : ℤ) (f b : String)
    (t0 t1 t2 t3 : ℤ) :
    (update_review (freshCard id deck f b t0) 5 t1).interval = 1 ∧
    (update_review (update_review (freshCard id deck f b t0) 5 t1)
        5 t2).interval = 6 ∧
    (update_review (update_review (update_review (freshCard id deck f b t0)
        5 t1) 5 t2) 5 t3).interval = 16 := by
  norm_num [update_review, easeUpdate, pyInt, freshCard]

/-! ## C5: session totals -/

/-- C5 counterexample: on a deck of 101 cards, `start_study_session`
reports `total_cards = 100` — `len(get_cards_by_deck(db, deck_id))` is
evaluated with the default `limit=100` — while the deck really holds
101 cards. -/
theorem start_study_session_total_capped :
    (start_study_session bigDB 1 0 20).total_cards = 100 ∧
    (bigDB.filter (fun c => c.deck_id = 1)).length = 101 := by
  constructor <;> rfl

/-- C5 amended: `total_card_count` equals the deck's card count capped
at 100 (the default `limit` of `get_cards_by_deck`), and with the
endpoint's bound `limit ≤ 100` the guarantee
`total_card_count ≥ len(due_cards)` still holds. -/
theorem start_study_session_counts (db : DB) (deck_id now : ℤ) (limit : ℕ)
    (hlim : limit ≤ 100) :
    (start_study_session db deck_id now limit).total_cards =
      min 100 (db.filter (fun c => c.deck_id = deck_id)).length ∧
    (start_study_session db deck_id now limit).cards_due.length ≤
      (start_study_session db deck_id now limit).total_cards := by
  have htot : (start_study_session db deck_id now limit).total_cards =
      min 100 (db.filter (fun c => c.deck_id = deck_id)).length := by
    unfold start_study_session get_cards_by_deck
    dsimp only
    rw [List.drop_zero, List.length_take, List.length_insertionSort]
  refine ⟨htot, ?_⟩
  rw [htot]
  have hdue : (start_study_session db deck_id now limit).cards_due.length =
      min limit (db.filter
        (fun c => c.deck_id = deck_id ∧ c.next_review ≤ now)).length := by
    unfold start_study_session get_due_cards
    dsimp only
    rw [List.length_take, List.length_insertionSort]
  rw [hdue]
  have hsub : (db.filter
      (fun c => c.deck_id = deck_id ∧ c.next_review ≤ now)).length ≤
      (db.filter (fun c => c.deck_id = deck_id)).length := by
    refine List.Sublist.length_le (List.monotone_filter_right db ?_)
    intro a h
    simp only [decide_eq_true_eq] at h ⊢
    exact h.1
  exact min_le_min hlim hsub

/-- Witness for `start_study_session_counts` on a one-card deck with
`limit = 20`. -/
theorem start_study_session_counts_witness :
    (20:ℕ) ≤ 100 ∧
    ((start_study_session [cardI6] 1 0 20).total_cards =
      min 100 (([cardI6] : DB).filter (fun c => c.deck_id = 1)).length ∧
     (start_study_session [cardI6] 1 0 20).cards_due.length ≤
      (start_study_session [cardI6] 1 0 20).total_cards) :=
  ⟨by norm_num, start_study_session_counts [cardI6] 1 0 20 (by norm_num)⟩

/-! ## C6: ordering of the due-card query -/

/-- C6 counterexample: the query orders only by `next_review`, so two
due cards with equal `next_review` come back in storage order — here
id 2 before id 1 — not ordered by card id as the claim states. -/
theorem get_due_cards_no_id_tiebreak :
    get_due_cards dbTies 1 0 20 = [cardTieB, cardTieA] ∧
    cardTieB.next_review = cardTieA.next_review ∧
    cardTieA.id < cardTieB.id := by
  refine ⟨rfl, rfl, by norm_num [cardTieA, cardTieB]⟩

/-- C6 amended: `get_due_cards` output is sorted ascending by
`next_review`; ties among equal `next_review` values keep the stored
order (the query has no id tie-break), and the output is a
deterministic function of the stored table, deck, time and limit. -/
theorem get_due_cards_sorted (db : DB) (deck_id now : ℤ) (limit : ℕ) :
    (get_due_cards db deck_id now limit).Sorted byNextReview := by
  unfold get_due_cards
  exact List.Pairwise.sublist (List.take_sublist _ _)
    (List.sorted_insertionSort byNextReview _)

/-! ## C7: bound, filter and totality of the due-card query -/

/-- C7: `get_due_cards` returns at most `limit` cards; every returned
card belongs to the requested deck and is due (`next_review ≤ now`);
and when the deck is empty or has no due card the result is the empty
list rather than an error. -/
theorem get_due_cards_bounded (db : DB) (deck_id now : ℤ) (limit : ℕ)
    (hlim : 1 ≤ limit) :
    (get_due_cards db deck_id now limit).length ≤ limit ∧
    (∀ c ∈ get_due_cards db deck_id now limit,
        c.deck_id = deck_id ∧ c.next_review ≤ now) ∧
    ((∀ c ∈ db, ¬(c.deck_id = deck_id ∧ c.next_review ≤ now)) →
        get_due_cards db deck_id now limit = []) := by
  refine ⟨List.length_take_le _ _, ?_, ?_⟩
  · intro c hc
    have hmem : c ∈ (db.filter
        (fun c => c.deck_id = deck_id ∧ c.next_review ≤ now)).insertionSort
          byNextReview := List.mem_of_mem_take hc
    have hmem2 := (List.mem_insertionSort byNextReview).1 hmem
    have := (List.mem_filter.1 hmem2).2
    exact of_decide_eq_true this
  · intro hnone
    have hfil : db.filter
        (fun c => c.deck_id = deck_id ∧ c.next_review ≤ now) = [] := by
      rw [List.filter_eq_nil_iff]
      intro c hc
      simpa using hnone c hc
    unfold get_due_cards
    rw [hfil]
    simp [List.insertionSort]

/-- Witness for `get_due_cards_bounded` at the two-card table `dbTies`
with `limit = 1`. -/
theorem get_due_cards_bounded_witness :
    1 ≤ 1 ∧
    ((get_due_cards dbTies 1 0 1).length ≤ 1 ∧
     (∀ c ∈ get_due_cards dbTies 1 0 1,
        c.deck_id = 1 ∧ c.next_review ≤ 0) ∧
     ((∀ c ∈ dbTies, ¬(c.deck_id = 1 ∧ c.next_review ≤ 0)) →
        get_due_cards dbTies 1 0 1 = [])) :=
  ⟨le_refl 1, get_due_cards_bounded dbTies 1 0 1 (le_refl 1)⟩

/-! ## C8: the per-deck average ease factor -/

/-- C8 counterexample: on a deck with ease factors `1.3, 1.4, 1.4` the
returned `average_ease_factor` is `1.37`, the two-decimal rounding of
the true mean `41/30 = 1.3666…`, so it is not equal to the arithmetic
mean. -/
theorem get_study_stats_avg_rounded :
    (get_study_stats dbEase 1 0).average_ease_factor = 137/100 ∧
    ((dbEase.filter (fun c => c.deck_id = 1)).map (fun c => c.ease_factor)).sum /
      ((dbEase.filter (fun c => c.deck_id = 1)).length : ℚ) = 41/30 ∧
    (137:ℚ)/100 ≠ 41/30 := by
  refine ⟨?_, ?_, by norm_num⟩
  · norm_num [get_study_stats, dbEase, cardE1, cardE2, cardE3, roundTo2,
      round_eq, List.filter, List.sum]
  · norm_num [dbEase, cardE1, cardE2, cardE3, List.filter, List.sum]

/-- C8 amended: for every deck with at least one card (and positive
ease factors, as every reachable state has), `average_ease_factor` is
the arithmetic mean of the deck's ease factors rounded to two decimal
places; a deck with zero cards yields `total_cards = 0`,
`cards_due = 0` and `average_ease_factor = 2.5`. -/
theorem get_study_stats_mean (db : DB) (deck_id now : ℤ) :
    ((db.filter (fun c => c.deck_id = deck_id)) ≠ [] →
      (∀ c ∈ db.filter (fun c => c.deck_id = deck_id), 0 < c.ease_factor) →
      (get_study_stats db deck_id now).average_ease_factor =
        roundTo2 (((db.filter (fun c => c.deck_id = deck_id)).map
          (fun c => c.ease_factor)).sum /
          ((db.filter (fun c => c.deck_id = deck_id)).length : ℚ))) ∧
    (db.filter (fun c => c.deck_id = deck_id) = [] →
      (get_study_stats db deck_id now).total_cards = 0 ∧
      (get_study_stats db deck_id now).cards_due = 0 ∧
      (get_study_stats db deck_id now).average_ease_factor = 5/2) := by
  constructor
  · intro hne hpos
    unfold get_study_stats
    dsimp only
    have hlen : (db.filter (fun c => c.deck_id = deck_id)).length ≠ 0 := by
      simpa [List.length_eq_zero] using hne
    rw [if_neg hlen]
    have hsum : 0 < ((db.filter (fun c => c.deck_id = deck_id)).map
        (fun c => c.ease_factor)).sum := by
      apply List.sum_pos
      · intro x hx
        obtain ⟨cc, hcc, rfl⟩ := List.mem_map.1 hx
        exact hpos cc hcc
      · simpa using hne
    have hq : ((db.filter (fun c => c.deck_id = deck_id)).map
        (fun c => c.ease_factor)).sum /
        ((db.filter (fun c => c.deck_id = deck_id)).length : ℚ) ≠ 0 := by
      have hlpos : (0:ℚ) <
          ((db.filter (fun c => c.deck_id = deck_id)).length : ℚ) := by
        exact_mod_cast Nat.pos_of_ne_zero hlen
      exact ne_of_gt (div_pos hsum hlpos)
    rw [if_neg hq]
  · intro he
    unfold get_study_stats
    dsimp only
    rw [he]
    norm_num [roundTo2, round_eq]

/-- Witness for `get_study_stats_mean` at the three-card deck `dbEase`. -/
theorem get_study_stats_mean_witness :
    dbEase.filter (fun c => c.deck_id = 1) ≠ [] ∧
    (get_study_stats dbEase 1 0).average_ease_factor =
      roundTo2 (((dbEase.filter (fun c => c.deck_id = 1)).map
        (fun c => c.ease_factor)).sum /
        ((dbEase.filter (fun c => c.deck_id = 1)).length : ℚ)) :=
  ⟨by simp [dbEase, cardE1, cardE2, cardE3],
   (get_study_stats_mean dbEase 1 0).1
     (by simp [dbEase, cardE1, cardE2, cardE3])
     (by
       intro c hc
       simp [dbEase, cardE1, cardE2, cardE3, List.filter] at hc
       rcases hc with rfl | rfl | rfl <;> norm_num)⟩

/-! ## C9: the generic card update leaves review state alone -/

/-- C9: `update_flashcard` applied to any `FlashcardUpdate` leaves
`interval`, `repetition`, `ease_factor` and `next_review` unchanged —
the update schema only carries `front` and `back`. -/
theorem update_flashcard_preserves_review_state (card : Flashcard)
    (u : FlashcardUpdate) :
    (apply_flashcard_update card u).interval = card.interval ∧
    (apply_flashcard_update card u).repetition = card.repetition ∧
    (apply_flashcard_update card u).ease_factor = card.ease_factor ∧
    (apply_flashcard_update card u).next_review = card.next_review := by
  unfold apply_flashcard_update
  cases hf : u.front <;> cases hb : u.back <;> exact ⟨rfl, rfl, rfl, rfl⟩

/-! ## C10: a just-reviewed card is never due at the same instant -/

/-- C10: for every card state reachable from creation through validated
reviews and every quality in `[0, 5]`, immediately after
`update_review` the card satisfies
`next_review = now + 86400 * interval` with `interval ≥ 1`, hence
`next_review > now`, and consequently the card is not in the output of
`get_due_cards` evaluated at the same instant, whatever the table, deck
and limit. -/
theorem reviewed_card_not_due (c : Flashcard) (q now : ℤ)
    (hc : Reachable c) (h0 : 0 ≤ q) (h5 : q ≤ 5) :
    (update_review c q now).next_review =
      now + 86400 * (update_review c q now).interval ∧
    1 ≤ (update_review c q now).interval ∧
    now < (update_review c q now).next_review ∧
    ∀ (db : DB) (deck_id : ℤ) (limit : ℕ),
      update_review c q now ∉ get_due_cards db deck_id now limit := by
  obtain ⟨hi, hr, he, hri⟩ := reachable_state_invariant hc
  have hpos := update_review_interval_pos hi hr he hri q now
  have hnr := (update_review_fields c q now).2.2.2
  have hgt : now < (update_review c q now).next_review := by
    rw [hnr]; omega
  refine ⟨hnr, hpos, hgt, ?_⟩
  intro db deck_id limit hmem
  unfold get_due_cards at hmem
  have hmem2 := (List.mem_insertionSort byNextReview).1
    (List.mem_of_mem_take hmem)
  have hdue := of_decide_eq_true (List.mem_filter.1 hmem2).2
  exact absurd hdue.2 (not_le.2 hgt)

/-- Witness for `reviewed_card_not_due`: a freshly created card, just
reviewed with `quality = 5`, is absent from the due set of its own
one-card table at the review instant. -/
theorem reviewed_card_not_due_witness :
    Reachable (freshCard 1 1 "f" "b" 0) ∧ (0:ℤ) ≤ 5 ∧ (5:ℤ) ≤ 5 ∧
    update_review (freshCard 1 1 "f" "b" 0) 5 0 ∉
      get_due_cards [update_review (freshCard 1 1 "f" "b" 0) 5 0] 1 0 20 :=
  ⟨Reachable.created 1 1 "f" "b" 0, by norm_num, by norm_num,
   (reviewed_card_not_due (freshCard 1 1 "f" "b" 0) 5 0
     (Reachable.created 1 1 "f" "b" 0) (by norm_num) (by norm_num)).2.2.2
     [update_review (freshCard 1 1 "f" "b" 0) 5 0] 1 20⟩

end Penlet
